import Mathlib

/-!
Formal model of the Restaurants_Data server (src/server/server.js).

The repository bundles two variants of the Express server in one file:
the first variant (authenticated routes, a `post_votes` vote ledger,
BEGIN/COMMIT transactions) and the second variant (unauthenticated
routes, counter-only voting).  Both are embedded below.  Relational
tables are modelled as lists of row records, SQL `SELECT ... WHERE`
followed by `rows[0]` as `List.find?`, `UPDATE ... WHERE` as `List.map`
guarded by the WHERE condition, and `INSERT` as appending a row.  The
PostgreSQL client is modelled as a connection holding the durable
database plus an optional open-transaction working copy; a query issued
while a transaction is open acts on the working copy, `COMMIT` makes the
working copy durable and `ROLLBACK` discards it.  A storage failure is
injected by the index of the failing query (`failAt`), mirroring a
thrown query promise that lands in the catch block of the handler.
-/

namespace RestaurantsData

/-- Row of the `posts` table (the columns the vote endpoints touch):
`SELECT id, upvotes, downvotes FROM posts`. -/
structure Post where
  id : Nat
  upvotes : Int
  downvotes : Int
  deriving Repr, DecidableEq

/-- Row of the `post_votes` vote-ledger table:
`(user_id, post_id, vote_type)`. -/
structure VoteRow where
  userId : Nat
  postId : Nat
  voteType : Int
  deriving Repr, DecidableEq

/-- The database state the voting subsystem reads and writes. -/
structure DB where
  posts : List Post
  postVotes : List VoteRow
  deriving Repr, DecidableEq

/-- Model of `SELECT id, upvotes, downvotes FROM posts WHERE id = $1` followed by
`rows[0]` (server.js:1034). -/
def findPost (db : DB) (pid : Nat) : Option Post :=
  db.posts.find? (fun p => p.id == pid)

/-- Model of `SELECT vote_type FROM post_votes WHERE user_id = $1 AND post_id = $2`
followed by `rows[0]` (server.js:1041). -/
def findVote (db : DB) (uid pid : Nat) : Option VoteRow :=
  db.postVotes.find? (fun v => v.userId == uid && v.postId == pid)

/-- Model of `INSERT INTO post_votes (user_id, post_id, vote_type) VALUES ($1, $2, $3)`
(server.js:1050). -/
def insertVote (db : DB) (uid pid : Nat) (vt : Int) : DB :=
  { db with postVotes := db.postVotes ++ [⟨uid, pid, vt⟩] }

/-- The row function of
`UPDATE post_votes SET vote_type = $1 WHERE user_id = $2 AND post_id = $3`
(server.js:1078). -/
def flipVote (uid pid : Nat) (vt : Int) (v : VoteRow) : VoteRow :=
  if v.userId == uid && v.postId == pid then { v with voteType := vt } else v

/-- Model of `UPDATE post_votes SET vote_type = $1 WHERE user_id = $2 AND post_id = $3`
(server.js:1078). -/
def setVoteType (db : DB) (uid pid : Nat) (vt : Int) : DB :=
  { db with postVotes := db.postVotes.map (flipVote uid pid vt) }

/-- Model of `UPDATE posts SET upvotes = $1 WHERE id = $2` (server.js:1057). -/
def setUpvotes (db : DB) (pid : Nat) (u : Int) : DB :=
  { db with posts := db.posts.map (fun p =>
      if p.id == pid then { p with upvotes := u } else p) }

/-- Model of `UPDATE posts SET downvotes = $1 WHERE id = $2` (server.js:1137). -/
def setDownvotes (db : DB) (pid : Nat) (d : Int) : DB :=
  { db with posts := db.posts.map (fun p =>
      if p.id == pid then { p with downvotes := d } else p) }

/-- Model of `UPDATE posts SET upvotes = $1, downvotes = $2 WHERE id = $3`
(server.js:1086, 1165). -/
def setBothVotes (db : DB) (pid : Nat) (u d : Int) : DB :=
  { db with posts := db.posts.map (fun p =>
      if p.id == pid then { p with upvotes := u, downvotes := d } else p) }

/-- The shared `pg` client: the durable database plus the working copy of
an open transaction, if one is open. -/
structure Conn where
  db : DB
  txn : Option DB
  deriving Repr, DecidableEq

/-- The state a query reads: the open transaction working copy when a
transaction is active, the durable state otherwise. -/
def Conn.cur (c : Conn) : DB := c.txn.getD c.db

/-- Apply a write query: inside a transaction it affects only the working
copy; outside, it autocommits to the durable state. -/
def Conn.write (c : Conn) (f : DB → DB) : Conn :=
  match c.txn with
  | some t => { c with txn := some (f t) }
  | none => { c with db := f c.db }

/-- Model of `client.query BEGIN` (server.js:1048). -/
def Conn.beginTx (c : Conn) : Conn := { c with txn := some c.db }

/-- Model of `client.query COMMIT` (server.js:1062). -/
def Conn.commitTx (c : Conn) : Conn := { db := c.cur, txn := none }

/-- Model of `client.query ROLLBACK` (server.js:1099): discard the open
transaction, if any. -/
def Conn.rollbackTx (c : Conn) : Conn := { db := c.db, txn := none }

/-- JSON body plus HTTP status of a vote-endpoint response (the ledger
variant).  Absent JSON keys are `none`. -/
structure VoteResult where
  status : Nat
  success : Option Bool
  upvotes : Option Int
  downvotes : Option Int
  message : String
  deriving Repr, DecidableEq

/-- Model of `res.status(500).json(...)` from the vote handler catch blocks. -/
def resp500 : VoteResult := ⟨500, none, none, none, "Internal server error"⟩

/-- Model of `POST /api/community/posts/:id/upvote`, ledger variant
(server.js:1025-1102), with an injected storage failure: `failAt = some k`
makes the k-th `client.query` of this request throw, reaching the catch
block, which issues ROLLBACK and answers 500. -/
def upvoteRun (uid pid : Nat) (failAt : Option Nat) (db : DB) : DB × VoteResult :=
  let conn : Conn := ⟨db, none⟩
  let failed := fun (c : Conn) => ((c.rollbackTx).db, resp500)
  if pid = 0 then (db, ⟨400, none, none, none, "Invalid post ID"⟩)
  else if failAt = some 0 then failed conn
  else match findPost conn.cur pid with
  | none => (conn.db, ⟨404, none, none, none, "Post not found"⟩)
  | some post =>
    if failAt = some 1 then failed conn
    else match findVote conn.cur uid pid with
    | none =>
      if failAt = some 2 then failed conn else
      let c1 := conn.beginTx
      if failAt = some 3 then failed c1 else
      let c2 := c1.write (fun d => insertVote d uid pid 1)
      if failAt = some 4 then failed c2 else
      let c3 := c2.write (fun d => setUpvotes d pid (post.upvotes + 1))
      if failAt = some 5 then failed c3 else
      let c4 := c3.commitTx
      (c4.db, ⟨200, some true, some (post.upvotes + 1), none, "Upvoted!"⟩)
    | some vote =>
      if vote.voteType = 1 then
        (conn.db, ⟨200, some false, none, none, "Already upvoted this post."⟩)
      else
        if failAt = some 2 then failed conn else
        let c1 := conn.beginTx
        if failAt = some 3 then failed c1 else
        let c2 := c1.write (fun d => setVoteType d uid pid 1)
        if failAt = some 4 then failed c2 else
        let c3 := c2.write (fun d => setBothVotes d pid (post.upvotes + 1) (post.downvotes - 1))
        if failAt = some 5 then failed c3 else
        let c4 := c3.commitTx
        (c4.db, ⟨200, some true, some (post.upvotes + 1), some (post.downvotes - 1),
          "Changed vote to upvote."⟩)

/-- Model of `POST /api/community/posts/:id/downvote`, ledger variant
(server.js:1105-1186), with the same failure injection. -/
def downvoteRun (uid pid : Nat) (failAt : Option Nat) (db : DB) : DB × VoteResult :=
  let conn : Conn := ⟨db, none⟩
  let failed := fun (c : Conn) => ((c.rollbackTx).db, resp500)
  if pid = 0 then (db, ⟨400, none, none, none, "Invalid post ID"⟩)
  else if failAt = some 0 then failed conn
  else match findPost conn.cur pid with
  | none => (conn.db, ⟨404, none, none, none, "Post not found"⟩)
  | some post =>
    if failAt = some 1 then failed conn
    else match findVote conn.cur uid pid with
    | none =>
      if failAt = some 2 then failed conn else
      let c1 := conn.beginTx
      if failAt = some 3 then failed c1 else
      let c2 := c1.write (fun d => insertVote d uid pid (-1))
      if failAt = some 4 then failed c2 else
      let c3 := c2.write (fun d => setDownvotes d pid (post.downvotes + 1))
      if failAt = some 5 then failed c3 else
      let c4 := c3.commitTx
      (c4.db, ⟨200, some true, none, some (post.downvotes + 1), "Downvoted!"⟩)
    | some vote =>
      if vote.voteType = -1 then
        (conn.db, ⟨200, some false, none, none, "Already downvoted this post."⟩)
      else
        if failAt = some 2 then failed conn else
        let c1 := conn.beginTx
        if failAt = some 3 then failed c1 else
        let c2 := c1.write (fun d => setVoteType d uid pid (-1))
        if failAt = some 4 then failed c2 else
        let c3 := c2.write (fun d => setBothVotes d pid (post.upvotes - 1) (post.downvotes + 1))
        if failAt = some 5 then failed c3 else
        let c4 := c3.commitTx
        (c4.db, ⟨200, some true, some (post.upvotes - 1), some (post.downvotes + 1),
          "Changed vote to downvote."⟩)

/-- The upvote endpoint when no storage failure occurs. -/
def upvote (uid pid : Nat) (db : DB) : DB × VoteResult :=
  upvoteRun uid pid none db

/-- The downvote endpoint when no storage failure occurs. -/
def downvote (uid pid : Nat) (db : DB) : DB × VoteResult :=
  downvoteRun uid pid none db

/-- Response of the counter-only vote endpoints (second variant). -/
structure SimpleVoteResult where
  status : Nat
  upvotes : Option Int
  downvotes : Option Int
  message : Option String
  deriving Repr, DecidableEq

/-- Model of `POST /api/community/posts/:id/upvote`, counter-only variant
(server.js:2355-2373): `UPDATE posts SET upvotes = upvotes + 1 WHERE id = $1
RETURNING upvotes`; 404 when no row matched.  No ledger is touched. -/
def upvoteSimple (pid : Nat) (db : DB) : DB × SimpleVoteResult :=
  let updated := db.posts.map (fun p =>
    if p.id == pid then { p with upvotes := p.upvotes + 1 } else p)
  match updated.find? (fun p => p.id == pid) with
  | none => (db, ⟨404, none, none, some "Post not found"⟩)
  | some r => ({ db with posts := updated }, ⟨200, some r.upvotes, none, none⟩)

/-- Model of `POST /api/community/posts/:id/downvote`, counter-only variant
(server.js:2376-2394). -/
def downvoteSimple (pid : Nat) (db : DB) : DB × SimpleVoteResult :=
  let updated := db.posts.map (fun p =>
    if p.id == pid then { p with downvotes := p.downvotes + 1 } else p)
  match updated.find? (fun p => p.id == pid) with
  | none => (db, ⟨404, none, none, some "Post not found"⟩)
  | some r => ({ db with posts := updated }, ⟨200, none, some r.downvotes, none⟩)

/-- Number of ledger rows for post `pid` with direction `+1`. -/
def countUp (votes : List VoteRow) (pid : Nat) : Nat :=
  (votes.filter (fun v => v.postId == pid && v.voteType == 1)).length

/-- Number of ledger rows for post `pid` with direction `-1`. -/
def countDown (votes : List VoteRow) (pid : Nat) : Nat :=
  (votes.filter (fun v => v.postId == pid && v.voteType == -1)).length

/-- Agreement of the counters of one post with the vote ledger (spec section 3). -/
def postConsistent (votes : List VoteRow) (p : Post) : Bool :=
  p.upvotes == (countUp votes p.id : Int) && p.downvotes == (countDown votes p.id : Int)

/-- The Ledger/Counter consistency invariant: the `upvotes` and
`downvotes` counters of every post equal the ledger counts for its id. -/
def ledgerConsistent (db : DB) : Bool :=
  db.posts.all (postConsistent db.postVotes)

/-- At most one ledger row per (user, post) pair (spec section 3:
identity of a Vote Ledger Entry). -/
def votesWellFormed : List VoteRow → Bool
  | [] => true
  | v :: rest =>
    rest.all (fun w => !(w.userId == v.userId && w.postId == v.postId)) &&
      votesWellFormed rest

/-- Every ledger direction is `+1` or `-1` (spec section 3). -/
def votesDirValid (votes : List VoteRow) : Bool :=
  votes.all (fun v => v.voteType == 1 || v.voteType == -1)

/-- Ledger well-formedness: unique (user, post) keys and valid directions. -/
def dbWellFormed (db : DB) : Bool :=
  votesWellFormed db.postVotes && votesDirValid db.postVotes

/-!
Phase split of the ledger-variant upvote handler at the transaction
boundary: in the source both `SELECT`s (post counters, existing vote row)
run before `BEGIN`, and all writes sit between `BEGIN` and `COMMIT`.
`upvoteRead` is the pre-transaction read phase, `upvoteApply` the write
phase; `upvote_phase_split` below proves that the sequential handler is
exactly read-then-apply on the same state.
-/

/-- Outcome of the read phase of the upvote handler: an early error
response, or the snapshot the write phase uses. -/
inductive UpvoteRead where
  | badId : UpvoteRead
  | missing : UpvoteRead
  | proceed (post : Post) (vote : Option VoteRow) : UpvoteRead
  deriving Repr, DecidableEq

/-- Reads of the upvote handler (server.js:1027-1044), all issued before
`BEGIN`: the counters snapshot and the existing ledger row. -/
def upvoteRead (uid pid : Nat) (db : DB) : UpvoteRead :=
  if pid = 0 then .badId
  else match findPost db pid with
  | none => .missing
  | some post => .proceed post (findVote db uid pid)

/-- Writes of the upvote handler (server.js:1046-1095) applied as one
transaction, using the counters snapshot taken by the read phase. -/
def upvoteApply (uid pid : Nat) (post : Post) (vote : Option VoteRow) (db : DB) :
    DB × VoteResult :=
  match vote with
  | none =>
      (setUpvotes (insertVote db uid pid 1) pid (post.upvotes + 1),
        ⟨200, some true, some (post.upvotes + 1), none, "Upvoted!"⟩)
  | some v =>
      if v.voteType = 1 then
        (db, ⟨200, some false, none, none, "Already upvoted this post."⟩)
      else
        (setBothVotes (setVoteType db uid pid 1) pid (post.upvotes + 1) (post.downvotes - 1),
          ⟨200, some true, some (post.upvotes + 1), some (post.downvotes - 1),
            "Changed vote to upvote."⟩)

/-- Complete one upvote call from its read-phase outcome. -/
def finishUpvote (uid pid : Nat) (r : UpvoteRead) (db : DB) : DB × VoteResult :=
  match r with
  | .badId => (db, ⟨400, none, none, none, "Invalid post ID"⟩)
  | .missing => (db, ⟨404, none, none, none, "Post not found"⟩)
  | .proceed post vote => upvoteApply uid pid post vote db

/-- Interleaving of two concurrent upvote requests in which both requests
finish their pre-transaction reads before either transaction runs; the
transactions then run back to back.  Both reads and both writes are the
ones the sequential handler performs. -/
def upvoteInterleaved (uidA uidB pid : Nat) (db : DB) :
    DB × VoteResult × VoteResult :=
  let rA := upvoteRead uidA pid db
  let rB := upvoteRead uidB pid db
  let sA := finishUpvote uidA pid rA db
  let sB := finishUpvote uidB pid rB sA.1
  (sB.1, sA.2, sB.2)

/-!  Users, roles and the role-gated administration endpoints
(first variant, server.js:595-732). -/

/-- Row of the `users` table (the columns these endpoints touch);
`password_hash` is nullable (soft delete sets it to NULL). -/
structure User where
  id : Nat
  username : String
  passwordHash : Option String
  role : String
  deriving Repr, DecidableEq

/-- The identity `authMiddleware` decodes from the bearer token
(server.js:1408-1420): `req.user.userId` and `req.user.role`. -/
structure Actor where
  userId : Nat
  role : String
  deriving Repr, DecidableEq

/-- Model of `SELECT id, username, role FROM users WHERE id = $1`, `rows[0]`. -/
def findUser (users : List User) (uid : Nat) : Option User :=
  users.find? (fun u => u.id == uid)

/-- Status and message of an administration-endpoint response. -/
structure ApiResult where
  status : Nat
  message : String
  deriving Repr, DecidableEq

/-- Model of `const allowedRoles` (server.js:601), the list of the three role strings the role-change route accepts. -/
def allowedRoles : List String := ["user", "moderator", "admin"]

/-- Model of `PUT /api/users/:id/role` (server.js:595-650): validate the requested
role, look the target up, then apply the acting-role rules, then update. -/
def changeRole (actor : Actor) (targetId : Nat) (newRole : String)
    (users : List User) : List User × ApiResult :=
  if !(allowedRoles.contains newRole) then
    (users, ⟨400, "Invalid role"⟩)
  else match findUser users targetId with
  | none => (users, ⟨404, "User not found"⟩)
  | some targetUser =>
    if actor.role = "admin" then
      (users.map (fun u => if u.id == targetId then { u with role := newRole } else u),
        ⟨200, ""⟩)
    else if actor.role = "moderator" then
      if newRole ≠ "moderator" then
        (users, ⟨403, "Forbidden: moderator can only set role=moderator"⟩)
      else if targetUser.role = "admin" then
        (users, ⟨403, "Forbidden: cannot modify an admin\x27s role"⟩)
      else
        (users.map (fun u => if u.id == targetId then { u with role := newRole } else u),
          ⟨200, ""⟩)
    else
      (users, ⟨403, "Forbidden: you do not have permission to change roles"⟩)

/-- Model of `POST /api/users/:id/promoteToModerator` (server.js:652-687): the
acting role is checked first, the target is looked up second. -/
def promoteToModerator (actor : Actor) (targetId : Nat)
    (users : List User) : List User × ApiResult :=
  if actor.role ≠ "admin" ∧ actor.role ≠ "moderator" then
    (users, ⟨403, "Forbidden: only mods or admins"⟩)
  else match findUser users targetId with
  | none => (users, ⟨404, "User not found"⟩)
  | some targetUser =>
    if targetUser.role = "admin" then
      (users, ⟨403, "Cannot promote an admin to moderator"⟩)
    else
      (users.map (fun u => if u.id == targetId then { u with role := "moderator" } else u),
        ⟨200, ""⟩)

/-- Model of `DELETE /api/users/:id` (server.js:690-732): the acting role is
checked first, the target is looked up second, then the
moderator-cannot-delete-admin rule, then the soft delete. -/
def deleteUser (actor : Actor) (targetId : Nat)
    (users : List User) : List User × ApiResult :=
  if actor.role ≠ "admin" ∧ actor.role ≠ "moderator" then
    (users, ⟨403, "Forbidden: only admin or moderator can delete users"⟩)
  else match findUser users targetId with
  | none => (users, ⟨404, "User not found"⟩)
  | some targetUser =>
    if actor.role = "moderator" ∧ targetUser.role = "admin" then
      (users, ⟨403, "Forbidden: cannot delete an admin as a moderator"⟩)
    else
      (users.map (fun u =>
          if u.id == targetId then
            { u with username := "[DELETED USER]", passwordHash := none, role := "deleted" }
          else u),
        ⟨200, ""⟩)

/-!  Comment editing, both variants. -/

/-- Row of the `comments` table. -/
structure CommentRow where
  id : Nat
  postId : Nat
  authorId : Nat
  text : String
  deriving Repr, DecidableEq

/-- Status of a comment-edit response plus the returned row, if any. -/
structure CommentResult where
  status : Nat
  comment : Option CommentRow
  message : String
  deriving Repr, DecidableEq

/-- Model of `PUT /api/community/comments/:id`, authenticated variant
(server.js:1252-1288): only the author of the comment may edit it; there
is no moderator or admin override. -/
def editComment (actor : Actor) (cid : Nat) (text : String)
    (comments : List CommentRow) : List CommentRow × CommentResult :=
  if text = "" then (comments, ⟨400, none, "Missing text field"⟩)
  else match comments.find? (fun c => c.id == cid) with
  | none => (comments, ⟨404, none, "Comment not found"⟩)
  | some c =>
    if c.authorId = actor.userId then
      (comments.map (fun d => if d.id == cid then { d with text := text } else d),
        ⟨200, some { c with text := text }, ""⟩)
    else
      (comments, ⟨403, none, "Forbidden: only the author can edit"⟩)

/-- Model of `PUT /api/community/comments/:id`, unauthenticated variant
(server.js:2459-2483): no `authMiddleware`, no author check; the update
runs for whoever sends the request. -/
def editCommentNoAuth (cid : Nat) (text : String)
    (comments : List CommentRow) : List CommentRow × CommentResult :=
  if text = "" then (comments, ⟨400, none, "Missing text field"⟩)
  else
    let updated := comments.map (fun d => if d.id == cid then { d with text := text } else d)
    match updated.find? (fun d => d.id == cid) with
    | none => (updated, ⟨404, none, "Comment not found or no changes made"⟩)
    | some r => (updated, ⟨200, some r, ""⟩)

/-!  `POST /api/restaurants` with Kakao geocoding (server.js:64-170). -/

/-- The generic `address` representation of a Kakao geocoding document.
Coordinates are kept as the raw strings the upstream service returns
(the handler passes them through `parseFloat`; no claim concerns the
numeric values). -/
structure KakaoAddress where
  region1depthName : String
  region2depthName : String
  region3depthName : String
  x : String
  y : String
  deriving Repr, DecidableEq

/-- The `road_address` representation of a Kakao geocoding document. -/
structure KakaoRoadAddress where
  region1depthName : String
  region2depthName : String
  region3depthName : String
  zoneNo : String
  roadNameField : String
  mainBuildingNo : String
  x : String
  y : String
  deriving Repr, DecidableEq

/-- One document of the Kakao geocoding response. -/
structure KakaoDoc where
  roadAddress : Option KakaoRoadAddress
  address : KakaoAddress
  deriving Repr, DecidableEq

/-- The fields `parseKakaoDoc` extracts. -/
structure ParsedKakaoDoc where
  siDo : String
  siGunGu : String
  eupMyeonDong : String
  postalCode : String
  roadName : String
  lon : String
  lat : String
  deriving Repr, DecidableEq

/-- Model of `parseKakaoDoc` (server.js:28-62): prefer `road_address`, fall back
to `address` with empty postal code and road name. -/
def parseKakaoDoc (doc : KakaoDoc) : ParsedKakaoDoc :=
  match doc.roadAddress with
  | some road =>
      ⟨road.region1depthName, road.region2depthName, road.region3depthName,
        road.zoneNo, road.roadNameField ++ " " ++ road.mainBuildingNo,
        road.x, road.y⟩
  | none =>
      ⟨doc.address.region1depthName, doc.address.region2depthName,
        doc.address.region3depthName, "", "", doc.address.x, doc.address.y⟩

/-- Row of the `restaurants` table. -/
structure Restaurant where
  id : Nat
  name : String
  englishSpeaking : Bool
  vegan : Bool
  vegetarian : Bool
  noPork : Bool
  halal : Bool
  noBeef : Bool
  glutenFree : Bool
  allowsForeigners : Bool
  siDo : String
  siGunGu : String
  eupMyeonDong : String
  postalCode : String
  roadName : String
  fullAddress : String
  lon : String
  lat : String
  deriving Repr, DecidableEq

/-- Request body of `POST /api/restaurants`. -/
structure RestaurantBody where
  name : String
  address : String
  englishSpeaking : Bool
  vegan : Bool
  vegetarian : Bool
  noPork : Bool
  halal : Bool
  noBeef : Bool
  glutenFree : Bool
  allowsForeigners : Bool
  deriving Repr, DecidableEq

/-- Response of `POST /api/restaurants`. -/
structure RestaurantResult where
  status : Nat
  success : Option Bool
  id : Option Nat
  message : String
  deriving Repr, DecidableEq

/-- The row the upsert writes for a given body and parsed geocoding
document (keeping `rid` as the row id). -/
def restaurantRow (rid : Nat) (body : RestaurantBody) (parsed : ParsedKakaoDoc) :
    Restaurant :=
  ⟨rid, body.name, body.englishSpeaking, body.vegan, body.vegetarian,
    body.noPork, body.halal, body.noBeef, body.glutenFree, body.allowsForeigners,
    parsed.siDo, parsed.siGunGu, parsed.eupMyeonDong, parsed.postalCode,
    parsed.roadName, body.address, parsed.lon, parsed.lat⟩

/-- Model of `POST /api/restaurants` (server.js:65-170), with the upstream Kakao
response given as its list of documents: an empty document list answers
400 before any database query; otherwise the first document is parsed
and upserted by unique name (`ON CONFLICT (name) DO UPDATE`), with
`nextId` the id a fresh insert would receive. -/
def postRestaurant (docs : List KakaoDoc) (body : RestaurantBody)
    (table : List Restaurant) (nextId : Nat) : List Restaurant × RestaurantResult :=
  match docs with
  | [] => (table, ⟨400, none, none, "Kakao: No results for that address"⟩)
  | doc :: _ =>
    let parsed := parseKakaoDoc doc
    match table.find? (fun r => r.name == body.name) with
    | some existing =>
        (table.map (fun r => if r.name == body.name then restaurantRow r.id body parsed else r),
          ⟨200, some true, some existing.id, ""⟩)
    | none =>
        (table ++ [restaurantRow nextId body parsed],
          ⟨200, some true, some nextId, ""⟩)

/-!  `POST /api/auth/register`, both variants (server.js:1328-1365 and
server.js:2506-2531).  Both insert the user the same way:
`VALUES ($1, $2, $3)` with username, password hash and `role` defaulted.
Password hashing is an external primitive (spec section 1); it is
modelled as an opaque digest constructor. -/

/-- Request body of `POST /api/auth/register`; `role := none` models an
absent `role` key. -/
structure RegisterBody where
  username : String
  password : String
  role : Option String
  deriving Repr, DecidableEq

/-- Opaque model of `bcrypt.hash(password, saltRounds)` (out-of-scope
external primitive per spec section 1). -/
def bcryptHash (password : String) (saltRounds : Nat) : String :=
  "bcrypt$" ++ toString saltRounds ++ "$" ++ password

/-- The JavaScript role-default expression of the register routes: an absent or empty role
field falls back to the string `user`; any other string is stored as is. -/
def roleOrDefault (role : Option String) : String :=
  match role with
  | none => "user"
  | some r => if r = "" then "user" else r

/-- Response of `POST /api/auth/register` (plain variant): the
`RETURNING id, username, role` row, or an error. -/
structure RegisterResult where
  status : Nat
  id : Option Nat
  username : Option String
  role : Option String
  deriving Repr, DecidableEq

/-- Model of `POST /api/auth/register` (server.js:2506-2531; the token variant at
server.js:1328-1365 performs the same insert).  The route has no
authentication middleware; the stored role comes from the request body
via the role-default expression. -/
def registerUser (body : RegisterBody) (users : List User) (nextId : Nat) :
    List User × RegisterResult :=
  if body.username = "" ∨ body.password = "" then
    (users, ⟨400, none, none, none⟩)
  else
    let passwordHash := bcryptHash body.password 10
    let role := roleOrDefault body.role
    (users ++ [⟨nextId, body.username, some passwordHash, role⟩],
      ⟨200, some nextId, some body.username, some role⟩)

/-!  Concrete states used by the per-claim scenarios and witnesses. -/

/-- A fresh post with both counters zero and an empty ledger. -/
def c2db : DB := ⟨[⟨1, 0, 0⟩], []⟩

/-- A post whose counters already agree with a ledger holding one
upvote by user 2. -/
def c4db : DB := ⟨[⟨1, 1, 0⟩], [⟨2, 1, 1⟩]⟩

/-- A fresh post used by the invariant counterexample. -/
def c1db : DB := ⟨[⟨1, 0, 0⟩], []⟩

/-- A fresh post used by the concurrency scenario. -/
def c9db : DB := ⟨[⟨1, 0, 0⟩], []⟩

/-- One comment authored by user 7. -/
def c7comments : List CommentRow := [⟨1, 1, 7, "original"⟩]

/-!  Claim theorems. -/

/-- C2: starting from an existing post with upvotes=0, downvotes=0 and no
ledger entries, an upvote by user A (id 1) returns success:true with
upvotes=1; a subsequent downvote by A flips the ledger entry of A to -1
and returns success:true with upvotes=0 and downvotes=1; a subsequent
downvote by user B (id 2) inserts a -1 entry and returns success:true
with downvotes=2. -/
theorem c2_vote_state_machine :
    upvote 1 1 c2db =
      (⟨[⟨1, 1, 0⟩], [⟨1, 1, 1⟩]⟩, ⟨200, some true, some 1, none, "Upvoted!"⟩)
    ∧ downvote 1 1 (upvote 1 1 c2db).1 =
      (⟨[⟨1, 0, 1⟩], [⟨1, 1, -1⟩]⟩,
        ⟨200, some true, some 0, some 1, "Changed vote to downvote."⟩)
    ∧ downvote 2 1 (downvote 1 1 (upvote 1 1 c2db).1).1 =
      (⟨[⟨1, 0, 2⟩], [⟨1, 1, -1⟩, ⟨2, 1, -1⟩]⟩,
        ⟨200, some true, none, some 2, "Downvoted!"⟩) := by
  decide

/-- C4: when the ledger already holds a +1 entry of user `uid` for an
existing post `pid`, a further upvote call by `uid` answers
success:false with the already-upvoted message and leaves the whole
database state, counters and ledger included, unchanged. -/
theorem c4_second_upvote_noop (uid pid : Nat) (db : DB) (post : Post) (v : VoteRow)
    (hpid : pid ≠ 0)
    (hpost : findPost db pid = some post)
    (hvote : findVote db uid pid = some v)
    (hv : v.voteType = 1) :
    upvote uid pid db =
      (db, ⟨200, some false, none, none, "Already upvoted this post."⟩) := by
  simp [upvote, upvoteRun, Conn.cur, hpid, hpost, hvote, hv]

/-- Witness for C4: user 2 already upvoted post 1, so a second upvote is
a no-op answering success:false. -/
theorem c4_second_upvote_noop_witness :
    upvote 2 1 c4db =
      (c4db, ⟨200, some false, none, none, "Already upvoted this post."⟩) :=
  c4_second_upvote_noop 2 1 c4db ⟨1, 1, 0⟩ ⟨2, 1, 1⟩ (by decide) (by decide)
    (by decide) rfl

/-- C8: when the upstream geocoding service returns an empty document
list, `POST /api/restaurants` answers 400 with the no-results message and
the restaurants table is left untouched. -/
theorem c8_geocode_empty_results (body : RestaurantBody) (table : List Restaurant)
    (nextId : Nat) :
    postRestaurant [] body table nextId =
      (table, ⟨400, none, none, "Kakao: No results for that address"⟩) := rfl

/-- C10: `POST /api/auth/register` stores whatever role string the
unauthenticated request body supplies, defaulting to the string `user`
only when the role field is absent or empty; in particular a body with
role `admin` yields an account whose role is `admin`. -/
theorem c10_register_role_from_body (body : RegisterBody) (users : List User)
    (nextId : Nat) (hu : body.username ≠ "") (hp : body.password ≠ "") :
    registerUser body users nextId =
      (users ++ [⟨nextId, body.username, some (bcryptHash body.password 10),
          roleOrDefault body.role⟩],
        ⟨200, some nextId, some body.username, some (roleOrDefault body.role)⟩)
    ∧ (body.role = some "admin" → roleOrDefault body.role = "admin")
    ∧ (body.role = none → roleOrDefault body.role = "user") := by
  refine ⟨by simp [registerUser, hu, hp], ?_, ?_⟩
  · intro h
    simp [roleOrDefault, h]
  · intro h
    simp [roleOrDefault, h]

/-- Witness for C10: registering with role `admin` and no credentials
yields an account whose stored role is `admin`. -/
theorem c10_register_role_from_body_witness :
    registerUser ⟨"alice", "pw", some "admin"⟩ [] 1 =
      ([⟨1, "alice", some (bcryptHash "pw" 10), "admin"⟩],
        ⟨200, some 1, some "alice", some "admin"⟩) := by
  have h := (c10_register_role_from_body ⟨"alice", "pw", some "admin"⟩ [] 1
    (by decide) (by decide)).1
  simpa [roleOrDefault] using h

/-- C5 counterexample: a plain user calling `DELETE /api/users/:id` on an
absent target receives 403, not 404, because that route checks the acting
role before looking the target up. -/
theorem c5_counterexample :
    findUser [] 99 = none
    ∧ (deleteUser ⟨1, "user"⟩ 99 []).2.status = 403
    ∧ ¬(deleteUser ⟨1, "user"⟩ 99 []).2.status = 404 := by
  decide

/-- C5 amended: `PUT /api/users/:id/role` looks the target up before the
authorization rule, so with a valid requested role any caller receives
404 on an absent target; but `POST /api/users/:id/promoteToModerator` and
`DELETE /api/users/:id` check the acting role first, so a caller that is
neither admin nor moderator receives 403 even when the target is absent,
while admin and moderator callers receive 404 there. -/
theorem c5_amended (actor : Actor) (targetId : Nat) (newRole : String)
    (users : List User)
    (hmiss : findUser users targetId = none)
    (hallowed : allowedRoles.contains newRole = true) :
    (changeRole actor targetId newRole users).2.status = 404
    ∧ ((actor.role = "admin" ∨ actor.role = "moderator") →
        (promoteToModerator actor targetId users).2.status = 404
        ∧ (deleteUser actor targetId users).2.status = 404)
    ∧ ((actor.role ≠ "admin" ∧ actor.role ≠ "moderator") →
        (promoteToModerator actor targetId users).2.status = 403
        ∧ (deleteUser actor targetId users).2.status = 403) := by
  have hmem : newRole ∈ allowedRoles := by simpa using hallowed
  refine ⟨by simp [changeRole, hmem, hmiss], ?_, ?_⟩
  · rintro (h | h) <;>
      simp [promoteToModerator, deleteUser, hmiss, h]
  · rintro ⟨h1, h2⟩
    simp [promoteToModerator, deleteUser, h1, h2]

/-- Witness for C5 amended: with an empty users table, a moderator gets
404 from all three endpoints, and a plain user gets 404 from the role
change but 403 from promote and delete. -/
theorem c5_amended_witness :
    (changeRole ⟨1, "user"⟩ 99 "moderator" []).2.status = 404
    ∧ (promoteToModerator ⟨2, "moderator"⟩ 99 []).2.status = 404
    ∧ (deleteUser ⟨1, "user"⟩ 99 []).2.status = 403 := by
  have hu := c5_amended ⟨1, "user"⟩ 99 "moderator" [] (by decide) (by decide)
  have hm := c5_amended ⟨2, "moderator"⟩ 99 "moderator" [] (by decide) (by decide)
  exact ⟨hu.1, (hm.2.1 (Or.inr rfl)).1, (hu.2.2 ⟨by decide, by decide⟩).2⟩

/-- C6: `PUT /api/users/:id/role`, for a valid requested role and an
existing target, permits exactly an admin (any role, any target) and a
moderator setting `moderator` on a target whose current role is not
`admin`; every denied combination answers 403 and leaves the users table,
the target role included, unchanged; a permitted call updates the target
role. -/
theorem c6_change_role_permits (actor : Actor) (targetId : Nat) (newRole : String)
    (users : List User) (target : User)
    (hallowed : allowedRoles.contains newRole = true)
    (hfind : findUser users targetId = some target) :
    ((changeRole actor targetId newRole users).2.status = 200 ↔
      (actor.role = "admin" ∨
        (actor.role = "moderator" ∧ newRole = "moderator" ∧ target.role ≠ "admin")))
    ∧ ((changeRole actor targetId newRole users).2.status ≠ 200 →
        (changeRole actor targetId newRole users).2.status = 403
        ∧ (changeRole actor targetId newRole users).1 = users)
    ∧ ((changeRole actor targetId newRole users).2.status = 200 →
        (changeRole actor targetId newRole users).1 =
          users.map (fun u => if u.id == targetId then { u with role := newRole } else u)) := by
  have hmem : newRole ∈ allowedRoles := by simpa using hallowed
  by_cases ha : actor.role = "admin"
  · simp [changeRole, hmem, hfind, ha]
  · by_cases hm : actor.role = "moderator"
    · by_cases hn : newRole = "moderator"
      · subst hn
        by_cases ht : target.role = "admin" <;>
          simp [changeRole, hmem, hfind, ha, hm, ht]
      · simp [changeRole, hmem, hfind, ha, hm, hn]
    · simp [changeRole, hmem, hfind, ha, hm]

/-- Witness for C6: a moderator promoting a plain user to moderator is
permitted, and the same moderator setting the role of an admin-owned
target is denied with 403 and no change. -/
theorem c6_change_role_permits_witness :
    (changeRole ⟨1, "moderator"⟩ 2 "moderator" [⟨2, "bob", none, "user"⟩]).2.status = 200
    ∧ (changeRole ⟨1, "moderator"⟩ 3 "moderator" [⟨3, "root", none, "admin"⟩]).2.status = 403 := by
  have h1 := c6_change_role_permits ⟨1, "moderator"⟩ 2 "moderator"
    [⟨2, "bob", none, "user"⟩] ⟨2, "bob", none, "user"⟩ (by decide) (by decide)
  have h2 := c6_change_role_permits ⟨1, "moderator"⟩ 3 "moderator"
    [⟨3, "root", none, "admin"⟩] ⟨3, "root", none, "admin"⟩ (by decide) (by decide)
  refine ⟨h1.1.mpr (Or.inr ⟨rfl, rfl, by decide⟩), ?_⟩
  exact (h2.2.1 (fun hc => by
    rcases h2.1.mp hc with h | h
    · exact absurd h (by decide)
    · exact absurd h.2.2 (by simp))).1

/-- C7 counterexample: the repository also registers an unauthenticated
variant of `PUT /api/community/comments/:id` (server.js:2459) with no
author check at all: an edit request with no authenticated caller
rewrites a comment authored by user 7 and answers 200, so comment editing
is not author-only on every reachable edit path. -/
theorem c7_counterexample :
    (editCommentNoAuth 1 "rewritten" c7comments).2.status = 200
    ∧ (editCommentNoAuth 1 "rewritten" c7comments).1 = [⟨1, 1, 7, "rewritten"⟩] := by
  decide

/-- C7 amended: in the authenticated variant of
`PUT /api/community/comments/:id`, an edit of an existing comment with a
non-empty body succeeds exactly when the caller is the author, and any
non-author, moderators and admins included, receives 403 with no change;
the unauthenticated variant, however, applies edits without any caller
identity. -/
theorem c7_amended (actor : Actor) (cid : Nat) (text : String)
    (comments : List CommentRow) (c : CommentRow)
    (htext : text ≠ "")
    (hfind : comments.find? (fun d => d.id == cid) = some c) :
    ((editComment actor cid text comments).2.status = 200 ↔ c.authorId = actor.userId)
    ∧ (c.authorId ≠ actor.userId →
        (editComment actor cid text comments).2.status = 403
        ∧ (editComment actor cid text comments).1 = comments) := by
  by_cases hauth : c.authorId = actor.userId <;>
    simp [editComment, htext, hfind, hauth]

/-- Witness for C7 amended: an admin who is not the author is denied
with 403 and the comment list is unchanged. -/
theorem c7_amended_witness :
    (editComment ⟨9, "admin"⟩ 1 "override" c7comments).2.status = 403
    ∧ (editComment ⟨9, "admin"⟩ 1 "override" c7comments).1 = c7comments := by
  have h := c7_amended ⟨9, "admin"⟩ 1 "override" c7comments ⟨1, 1, 7, "original"⟩
    (by decide) (by decide)
  exact h.2 (by decide)

/-- Whatever query of an upvote request fails, the request either has its
full sequential effect or leaves the durable database exactly as it was
and answers 500. -/
theorem upvoteRun_atomic (uid pid : Nat) (f : Option Nat) (db : DB) :
    upvoteRun uid pid f db = upvote uid pid db
    ∨ upvoteRun uid pid f db = (db, resp500) := by
  cases f with
  | none => exact Or.inl rfl
  | some k =>
    by_cases h0 : pid = 0
    · left
      simp [upvote, upvoteRun, h0]
    · by_cases hk0 : k = 0
      · subst hk0
        right
        simp [upvoteRun, h0, Conn.rollbackTx]
      · cases hfp : findPost db pid with
        | none =>
          left
          simp [upvote, upvoteRun, h0, hk0, hfp, Conn.cur]
        | some post =>
          by_cases hk1 : k = 1
          · subst hk1
            right
            simp [upvoteRun, h0, hfp, Conn.cur, Conn.rollbackTx]
          · cases hfv : findVote db uid pid with
            | none =>
              by_cases hk2 : k = 2
              · subst hk2
                right
                simp [upvoteRun, h0, hfp, hfv, Conn.cur, Conn.rollbackTx]
              · by_cases hk3 : k = 3
                · subst hk3
                  right
                  simp [upvoteRun, h0, hfp, hfv, Conn.cur, Conn.beginTx, Conn.rollbackTx]
                · by_cases hk4 : k = 4
                  · subst hk4
                    right
                    simp [upvoteRun, h0, hfp, hfv, Conn.cur, Conn.beginTx, Conn.write,
                      Conn.rollbackTx]
                  · by_cases hk5 : k = 5
                    · subst hk5
                      right
                      simp [upvoteRun, h0, hfp, hfv, Conn.cur, Conn.beginTx, Conn.write,
                        Conn.rollbackTx]
                    · left
                      simp [upvote, upvoteRun, h0, hk0, hk1, hk2, hk3, hk4, hk5, hfp, hfv,
                        Conn.cur]
            | some vote =>
              by_cases hv : vote.voteType = 1
              · left
                simp [upvote, upvoteRun, h0, hk0, hk1, hfp, hfv, hv, Conn.cur]
              · by_cases hk2 : k = 2
                · subst hk2
                  right
                  simp [upvoteRun, h0, hfp, hfv, hv, Conn.cur, Conn.rollbackTx]
                · by_cases hk3 : k = 3
                  · subst hk3
                    right
                    simp [upvoteRun, h0, hfp, hfv, hv, Conn.cur, Conn.beginTx, Conn.rollbackTx]
                  · by_cases hk4 : k = 4
                    · subst hk4
                      right
                      simp [upvoteRun, h0, hfp, hfv, hv, Conn.cur, Conn.beginTx, Conn.write,
                        Conn.rollbackTx]
                    · by_cases hk5 : k = 5
                      · subst hk5
                        right
                        simp [upvoteRun, h0, hfp, hfv, hv, Conn.cur, Conn.beginTx, Conn.write,
                          Conn.rollbackTx]
                      · left
                        simp [upvote, upvoteRun, h0, hk0, hk1, hk2, hk3, hk4, hk5, hfp, hfv,
                          hv, Conn.cur]

/-- Whatever query of a downvote request fails, the request either has
its full sequential effect or leaves the durable database exactly as it
was and answers 500. -/
theorem downvoteRun_atomic (uid pid : Nat) (f : Option Nat) (db : DB) :
    downvoteRun uid pid f db = downvote uid pid db
    ∨ downvoteRun uid pid f db = (db, resp500) := by
  cases f with
  | none => exact Or.inl rfl
  | some k =>
    by_cases h0 : pid = 0
    · left
      simp [downvote, downvoteRun, h0]
    · by_cases hk0 : k = 0
      · subst hk0
        right
        simp [downvoteRun, h0, Conn.rollbackTx]
      · cases hfp : findPost db pid with
        | none =>
          left
          simp [downvote, downvoteRun, h0, hk0, hfp, Conn.cur]
        | some post =>
          by_cases hk1 : k = 1
          · subst hk1
            right
            simp [downvoteRun, h0, hfp, Conn.cur, Conn.rollbackTx]
          · cases hfv : findVote db uid pid with
            | none =>
              by_cases hk2 : k = 2
              · subst hk2
                right
                simp [downvoteRun, h0, hfp, hfv, Conn.cur, Conn.rollbackTx]
              · by_cases hk3 : k = 3
                · subst hk3
                  right
                  simp [downvoteRun, h0, hfp, hfv, Conn.cur, Conn.beginTx, Conn.rollbackTx]
                · by_cases hk4 : k = 4
                  · subst hk4
                    right
                    simp [downvoteRun, h0, hfp, hfv, Conn.cur, Conn.beginTx, Conn.write,
                      Conn.rollbackTx]
                  · by_cases hk5 : k = 5
                    · subst hk5
                      right
                      simp [downvoteRun, h0, hfp, hfv, Conn.cur, Conn.beginTx, Conn.write,
                        Conn.rollbackTx]
                    · left
                      simp [downvote, downvoteRun, h0, hk0, hk1, hk2, hk3, hk4, hk5, hfp, hfv,
                        Conn.cur]
            | some vote =>
              by_cases hv : vote.voteType = -1
              · left
                simp [downvote, downvoteRun, h0, hk0, hk1, hfp, hfv, hv, Conn.cur]
              · by_cases hk2 : k = 2
                · subst hk2
                  right
                  simp [downvoteRun, h0, hfp, hfv, hv, Conn.cur, Conn.rollbackTx]
                · by_cases hk3 : k = 3
                  · subst hk3
                    right
                    simp [downvoteRun, h0, hfp, hfv, hv, Conn.cur, Conn.beginTx, Conn.rollbackTx]
                  · by_cases hk4 : k = 4
                    · subst hk4
                      right
                      simp [downvoteRun, h0, hfp, hfv, hv, Conn.cur, Conn.beginTx, Conn.write,
                        Conn.rollbackTx]
                    · by_cases hk5 : k = 5
                      · subst hk5
                        right
                        simp [downvoteRun, h0, hfp, hfv, hv, Conn.cur, Conn.beginTx, Conn.write,
                          Conn.rollbackTx]
                      · left
                        simp [downvote, downvoteRun, h0, hk0, hk1, hk2, hk3, hk4, hk5, hfp, hfv,
                          hv, Conn.cur]

/-- C3: for every user, post and database state, and whichever single
query of the request the storage makes fail, a vote-intent application is
atomic: the run either equals the failure-free run (ledger write and
counter update both applied) or leaves the durable database exactly in
its pre-operation state and surfaces a 500 error after the catch-block
ROLLBACK; no partial counter drift is possible for either endpoint. -/
theorem c3_vote_atomicity (uid pid : Nat) (f : Option Nat) (db : DB) :
    (upvoteRun uid pid f db = upvote uid pid db
      ∨ upvoteRun uid pid f db = (db, resp500))
    ∧ (downvoteRun uid pid f db = downvote uid pid db
      ∨ downvoteRun uid pid f db = (db, resp500)) :=
  ⟨upvoteRun_atomic uid pid f db, downvoteRun_atomic uid pid f db⟩

/-- The sequential upvote handler is exactly its pre-transaction read
phase followed by its transactional write phase on the same state; this
is the split at the `BEGIN` boundary that the interleaving below uses. -/
theorem upvote_phase_split (uid pid : Nat) (db : DB) :
    upvote uid pid db = finishUpvote uid pid (upvoteRead uid pid db) db := by
  by_cases h0 : pid = 0
  · simp [upvote, upvoteRun, upvoteRead, finishUpvote, h0]
  · cases hfp : findPost db pid with
    | none => simp [upvote, upvoteRun, upvoteRead, finishUpvote, h0, hfp, Conn.cur]
    | some post =>
      cases hfv : findVote db uid pid with
      | none =>
        simp [upvote, upvoteRun, upvoteRead, finishUpvote, upvoteApply, h0, hfp, hfv,
          Conn.cur, Conn.beginTx, Conn.write, Conn.commitTx]
      | some vote =>
        by_cases hv : vote.voteType = 1 <;>
          simp [upvote, upvoteRun, upvoteRead, finishUpvote, upvoteApply, h0, hfp, hfv, hv,
            Conn.cur, Conn.beginTx, Conn.write, Conn.commitTx]

/-- C9 counterexample: the upvote handler issues both of its reads before
`BEGIN`, so the interleaving in which two distinct users (1 and 2) both
finish their reads on the fresh post before either transaction runs is
realizable; in it both calls answer success:true yet the final upvotes
counter is 1, not 2 — a lost update, refuting the claim that every
interleaving leaves upvotes = 2. -/
theorem c9_counterexample :
    (upvoteInterleaved 1 2 1 c9db).2.1.success = some true
    ∧ (upvoteInterleaved 1 2 1 c9db).2.2.success = some true
    ∧ (upvoteInterleaved 1 2 1 c9db).1.posts = [⟨1, 1, 0⟩]
    ∧ ¬(upvoteInterleaved 1 2 1 c9db).1.posts = [⟨1, 2, 0⟩] := by
  decide

/-- C9 amended: two upvotes by distinct users on the same fresh post
leave upvotes = 2 when the calls do not overlap (either order), but the
handler does not serialize overlapping calls: in the reads-before-writes
interleaving both calls succeed and the final counter is 1 (one update is
lost), and the ledger then holds two +1 rows against a counter of 1. -/
theorem c9_amended :
    (upvote 2 1 (upvote 1 1 c9db).1).1.posts = [⟨1, 2, 0⟩]
    ∧ (upvote 1 1 (upvote 2 1 c9db).1).1.posts = [⟨1, 2, 0⟩]
    ∧ (upvoteInterleaved 1 2 1 c9db).2.1.success = some true
    ∧ (upvoteInterleaved 1 2 1 c9db).2.2.success = some true
    ∧ (upvoteInterleaved 1 2 1 c9db).1.posts = [⟨1, 1, 0⟩]
    ∧ (upvoteInterleaved 1 2 1 c9db).1.postVotes = [⟨1, 1, 1⟩, ⟨2, 1, 1⟩]
    ∧ ledgerConsistent (upvoteInterleaved 1 2 1 c9db).1 = false := by
  decide

theorem flipVote_userId (uid pid : Nat) (vt : Int) (v : VoteRow) :
    (flipVote uid pid vt v).userId = v.userId := by
  unfold flipVote
  split <;> rfl

theorem flipVote_postId (uid pid : Nat) (vt : Int) (v : VoteRow) :
    (flipVote uid pid vt v).postId = v.postId := by
  unfold flipVote
  split <;> rfl

theorem countUp_append (l : List VoteRow) (v : VoteRow) (q : Nat) :
    countUp (l ++ [v]) q
      = countUp l q + (if v.postId = q ∧ v.voteType = 1 then 1 else 0) := by
  simp only [countUp, List.filter_append, List.length_append, List.filter_cons,
    List.filter_nil]
  split <;> split <;> simp_all

theorem countDown_append (l : List VoteRow) (v : VoteRow) (q : Nat) :
    countDown (l ++ [v]) q
      = countDown l q + (if v.postId = q ∧ v.voteType = -1 then 1 else 0) := by
  simp only [countDown, List.filter_append, List.length_append, List.filter_cons,
    List.filter_nil]
  split <;> split <;> simp_all

theorem map_flipVote_of_all (uid pid : Nat) (vt : Int) :
    ∀ l : List VoteRow,
      l.all (fun v => !(v.userId == uid && v.postId == pid)) = true →
      l.map (flipVote uid pid vt) = l := by
  intro l
  induction l with
  | nil => intro _; rfl
  | cons v rest ih =>
    intro h
    rw [List.all_cons, Bool.and_eq_true] at h
    rw [List.map_cons, ih h.2]
    have hb : (v.userId == uid && v.postId == pid) = false := by
      rcases (by simpa using h.1 : ¬v.userId = uid ∨ ¬v.postId = pid) with hx | hx <;>
        simp [hx]
    simp [flipVote, hb]

theorem counts_map_flip_ne (uid pid q : Nat) (vt : Int) (hq : ¬(q = pid)) :
    ∀ l : List VoteRow,
      countUp (l.map (flipVote uid pid vt)) q = countUp l q
      ∧ countDown (l.map (flipVote uid pid vt)) q = countDown l q := by
  have hpq : ¬(pid = q) := fun h => hq h.symm
  intro l
  induction l with
  | nil => exact ⟨rfl, rfl⟩
  | cons v rest ih =>
    by_cases hm : (v.userId == uid && v.postId == pid) = true
    · have hpid : v.postId = pid := by
        have hm2 := hm
        simp [Bool.and_eq_true] at hm2
        exact hm2.2
      have hflip : flipVote uid pid vt v = { v with voteType := vt } := by
        simp [flipVote, hm]
      refine ⟨?_, ?_⟩
      · simp only [List.map_cons, countUp, List.filter_cons, hflip, hpid]
        have h1 := ih.1
        simp only [countUp] at h1
        simp [hpq, h1]
      · simp only [List.map_cons, countDown, List.filter_cons, hflip, hpid]
        have h2 := ih.2
        simp only [countDown] at h2
        simp [hpq, h2]
    · have hb : (v.userId == uid && v.postId == pid) = false := by
        cases h : (v.userId == uid && v.postId == pid)
        · rfl
        · exact absurd h hm
      have hflip : flipVote uid pid vt v = v := by
        simp [flipVote, hb]
      refine ⟨?_, ?_⟩
      · simp only [List.map_cons, countUp, List.filter_cons, hflip]
        have h1 := ih.1
        simp only [countUp] at h1
        split <;> simp [h1]
      · simp only [List.map_cons, countDown, List.filter_cons, hflip]
        have h2 := ih.2
        simp only [countDown] at h2
        split <;> simp [h2]

theorem counts_map_flip (uid pid : Nat) (newVt : Int) :
    ∀ (l : List VoteRow) (r : VoteRow),
      votesWellFormed l = true →
      l.find? (fun v => v.userId == uid && v.postId == pid) = some r →
      (countUp (l.map (flipVote uid pid newVt)) pid : Int) =
        (countUp l pid : Int) - (if r.voteType = 1 then 1 else 0)
          + (if newVt = 1 then 1 else 0)
      ∧ (countDown (l.map (flipVote uid pid newVt)) pid : Int) =
        (countDown l pid : Int) - (if r.voteType = -1 then 1 else 0)
          + (if newVt = -1 then 1 else 0) := by
  intro l
  induction l with
  | nil =>
    intro r _ hfind
    simp at hfind
  | cons v rest ih =>
    intro r hwf hfind
    simp only [votesWellFormed, Bool.and_eq_true] at hwf
    by_cases hm : (v.userId == uid && v.postId == pid) = true
    · simp only [List.find?, hm] at hfind
      obtain rfl : v = r := Option.some.inj hfind
      have hm2 := hm
      rw [Bool.and_eq_true, beq_iff_eq, beq_iff_eq] at hm2
      have hrest : rest.map (flipVote uid pid newVt) = rest := by
        apply map_flipVote_of_all
        have := hwf.1
        simpa [hm2.1, hm2.2] using this
      have hflip : flipVote uid pid newVt v = { v with voteType := newVt } := by
        simp [flipVote, hm]
      rw [List.map_cons, hrest, hflip]
      constructor
      · simp only [countUp, List.filter_cons, hm2.2]
        by_cases hnew : newVt = 1 <;> by_cases hold : v.voteType = 1 <;>
          simp [hnew, hold]
      · simp only [countDown, List.filter_cons, hm2.2]
        by_cases hnew : newVt = -1 <;> by_cases hold : v.voteType = -1 <;>
          simp [hnew, hold]
    · have hb : (v.userId == uid && v.postId == pid) = false := by
        cases h : (v.userId == uid && v.postId == pid)
        · rfl
        · exact absurd h hm
      simp only [List.find?, hb] at hfind
      have hflip : flipVote uid pid newVt v = v := by
        simp [flipVote, hb]
      have hih := ih r hwf.2 hfind
      rw [List.map_cons, hflip]
      constructor
      · simp only [countUp, List.filter_cons]
        have h1 := hih.1
        simp only [countUp] at h1
        split <;> (try simp only [List.length_cons]) <;> push_cast at h1 ⊢ <;> omega
      · simp only [countDown, List.filter_cons]
        have h2 := hih.2
        simp only [countDown] at h2
        split <;> (try simp only [List.length_cons]) <;> push_cast at h2 ⊢ <;> omega

theorem votesWellFormed_map_flip (uid pid : Nat) (vt : Int) :
    ∀ l : List VoteRow, votesWellFormed l = true →
      votesWellFormed (l.map (flipVote uid pid vt)) = true := by
  intro l
  induction l with
  | nil => intro h; exact h
  | cons v rest ih =>
    intro h
    simp only [votesWellFormed, Bool.and_eq_true] at h
    simp only [List.map_cons, votesWellFormed, Bool.and_eq_true]
    refine ⟨?_, ih h.2⟩
    rw [List.all_eq_true]
    intro w' hw'
    obtain ⟨w, hw, rfl⟩ := List.mem_map.mp hw'
    have hpred := List.all_eq_true.mp h.1 w hw
    simp only [flipVote_userId, flipVote_postId]
    exact hpred

theorem votesWellFormed_append (uid pid : Nat) (vt : Int) :
    ∀ l : List VoteRow,
      votesWellFormed l = true →
      l.all (fun v => !(v.userId == uid && v.postId == pid)) = true →
      votesWellFormed (l ++ [⟨uid, pid, vt⟩]) = true := by
  intro l
  induction l with
  | nil => intro _ _; rfl
  | cons v rest ih =>
    intro hwf hall
    simp only [votesWellFormed, Bool.and_eq_true] at hwf
    rw [List.all_cons, Bool.and_eq_true] at hall
    simp only [List.cons_append, votesWellFormed, Bool.and_eq_true]
    refine ⟨?_, ih hwf.2 hall.2⟩
    rw [List.all_eq_true]
    intro w hw
    rcases List.mem_append.mp hw with hw2 | hw2
    · exact List.all_eq_true.mp hwf.1 w hw2
    · obtain rfl : w = ⟨uid, pid, vt⟩ := by simpa using hw2
      have h1 : ¬v.userId = uid ∨ ¬v.postId = pid := by simpa using hall.1
      simp
      rcases h1 with h1 | h1
      · left
        exact fun h => h1 h.symm
      · right
        exact fun h => h1 h.symm

theorem votesDirValid_append (l : List VoteRow) (uid pid : Nat) (vt : Int)
    (h : votesDirValid l = true) (hvt : vt = 1 ∨ vt = -1) :
    votesDirValid (l ++ [⟨uid, pid, vt⟩]) = true := by
  simp only [votesDirValid, List.all_append, Bool.and_eq_true] at *
  refine ⟨h, ?_⟩
  simp only [List.all_cons, List.all_nil, Bool.and_true]
  rcases hvt with h1 | h1 <;> simp [h1]

theorem votesDirValid_map_flip (uid pid : Nat) (vt : Int)
    (hvt : vt = 1 ∨ vt = -1) (l : List VoteRow)
    (h : votesDirValid l = true) :
    votesDirValid (l.map (flipVote uid pid vt)) = true := by
  simp only [votesDirValid, List.all_eq_true] at *
  intro w' hw'
  obtain ⟨w, hw, rfl⟩ := List.mem_map.mp hw'
  unfold flipVote
  split
  · rcases hvt with h1 | h1 <;> simp [h1]
  · exact h w hw

theorem findVote_none_all (db : DB) (uid pid : Nat)
    (h : findVote db uid pid = none) :
    db.postVotes.all (fun v => !(v.userId == uid && v.postId == pid)) = true := by
  rw [List.all_eq_true]
  intro v hv
  have hnone := List.find?_eq_none.mp h v hv
  cases hb : (v.userId == uid && v.postId == pid)
  · simp
  · exact absurd hb hnone

theorem ledgerConsistent_forall (db : DB) (hinv : ledgerConsistent db = true) :
    ∀ p ∈ db.posts, p.upvotes = (countUp db.postVotes p.id : Int)
      ∧ p.downvotes = (countDown db.postVotes p.id : Int) := by
  intro p hp
  have h := List.all_eq_true.mp hinv p hp
  simpa [postConsistent] using h

theorem fresh_upvote_preserves (db : DB) (uid pid : Nat) (post : Post)
    (hfp : findPost db pid = some post)
    (hfv : findVote db uid pid = none)
    (hwf : dbWellFormed db = true)
    (hinv : ledgerConsistent db = true) :
    ledgerConsistent (setUpvotes (insertVote db uid pid 1) pid (post.upvotes + 1)) = true
    ∧ dbWellFormed (setUpvotes (insertVote db uid pid 1) pid (post.upvotes + 1)) = true := by
  have hmem : post ∈ db.posts := List.mem_of_find?_eq_some hfp
  have hpid : post.id = pid := by simpa using List.find?_some hfp
  have hinv' := ledgerConsistent_forall db hinv
  have hall := findVote_none_all db uid pid hfv
  simp only [dbWellFormed, Bool.and_eq_true] at hwf
  constructor
  · simp only [ledgerConsistent, setUpvotes, insertVote]
    rw [List.all_eq_true]
    intro p' hp'
    obtain ⟨p, hp, rfl⟩ := List.mem_map.mp hp'
    by_cases hid : (p.id == pid) = true
    · have hpeq : p.id = pid := by simpa using hid
      simp only [hid, if_true, postConsistent]
      rw [Bool.and_eq_true, beq_iff_eq, beq_iff_eq]
      constructor
      · rw [countUp_append]
        have hup := (hinv' post hmem).1
        rw [hpid] at hup
        simp only [hpeq]
        simp [hup]
      · rw [countDown_append]
        have hdn := (hinv' p hp).2
        simp only [hpeq] at hdn ⊢
        simp [hdn]
    · have hb : (p.id == pid) = false := by
        cases h : (p.id == pid)
        · rfl
        · exact absurd h hid
      have hne : ¬(pid = p.id) := by
        intro h
        rw [h] at hb
        simp at hb
      simp only [hb, Bool.false_eq_true, if_false, postConsistent]
      rw [Bool.and_eq_true, beq_iff_eq, beq_iff_eq]
      constructor
      · rw [countUp_append]
        have hup := (hinv' p hp).1
        simp [hne, hup]
      · rw [countDown_append]
        have hdn := (hinv' p hp).2
        simp [hne, hdn]
  · simp only [dbWellFormed, setUpvotes, insertVote, Bool.and_eq_true]
    exact ⟨votesWellFormed_append uid pid 1 db.postVotes hwf.1 hall,
      votesDirValid_append db.postVotes uid pid 1 hwf.2 (Or.inl rfl)⟩

theorem switch_upvote_preserves (db : DB) (uid pid : Nat) (post : Post) (vote : VoteRow)
    (hfp : findPost db pid = some post)
    (hfv : findVote db uid pid = some vote)
    (hv : vote.voteType = -1)
    (hwf : dbWellFormed db = true)
    (hinv : ledgerConsistent db = true) :
    ledgerConsistent
      (setBothVotes (setVoteType db uid pid 1) pid (post.upvotes + 1) (post.downvotes - 1)) = true
    ∧ dbWellFormed
      (setBothVotes (setVoteType db uid pid 1) pid (post.upvotes + 1) (post.downvotes - 1)) = true := by
  have hmem : post ∈ db.posts := List.mem_of_find?_eq_some hfp
  have hpid : post.id = pid := by simpa using List.find?_some hfp
  have hinv' := ledgerConsistent_forall db hinv
  simp only [dbWellFormed, Bool.and_eq_true] at hwf
  have hcounts := counts_map_flip uid pid 1 db.postVotes vote hwf.1 hfv
  have hup : (countUp (db.postVotes.map (flipVote uid pid 1)) pid : Int)
      = (countUp db.postVotes pid : Int) + 1 := by
    rw [hcounts.1]
    simp [hv]
  have hdn : (countDown (db.postVotes.map (flipVote uid pid 1)) pid : Int)
      = (countDown db.postVotes pid : Int) - 1 := by
    rw [hcounts.2]
    simp [hv]
  constructor
  · simp only [ledgerConsistent, setBothVotes, setVoteType]
    rw [List.all_eq_true]
    intro p' hp'
    obtain ⟨p, hp, rfl⟩ := List.mem_map.mp hp'
    by_cases hid : (p.id == pid) = true
    · have hpeq : p.id = pid := by simpa using hid
      simp only [hid, if_true, postConsistent]
      rw [Bool.and_eq_true, beq_iff_eq, beq_iff_eq]
      have hpost := hinv' post hmem
      rw [hpid] at hpost
      constructor
      · simp only [hpeq]
        rw [hup]
        omega
      · simp only [hpeq]
        rw [hdn]
        omega
    · have hb : (p.id == pid) = false := by
        cases h : (p.id == pid)
        · rfl
        · exact absurd h hid
      have hne : ¬(p.id = pid) := by
        intro h
        rw [h] at hb
        simp at hb
      have hcne := counts_map_flip_ne uid pid p.id 1 hne db.postVotes
      simp only [hb, Bool.false_eq_true, if_false, postConsistent]
      rw [Bool.and_eq_true, beq_iff_eq, beq_iff_eq]
      have hpp := hinv' p hp
      rw [hcne.1, hcne.2]
      exact ⟨hpp.1, hpp.2⟩
  · simp only [dbWellFormed, setBothVotes, setVoteType, Bool.and_eq_true]
    exact ⟨votesWellFormed_map_flip uid pid 1 db.postVotes hwf.1,
      votesDirValid_map_flip uid pid 1 (Or.inl rfl) db.postVotes hwf.2⟩

theorem fresh_downvote_preserves (db : DB) (uid pid : Nat) (post : Post)
    (hfp : findPost db pid = some post)
    (hfv : findVote db uid pid = none)
    (hwf : dbWellFormed db = true)
    (hinv : ledgerConsistent db = true) :
    ledgerConsistent (setDownvotes (insertVote db uid pid (-1)) pid (post.downvotes + 1)) = true
    ∧ dbWellFormed (setDownvotes (insertVote db uid pid (-1)) pid (post.downvotes + 1)) = true := by
  have hmem : post ∈ db.posts := List.mem_of_find?_eq_some hfp
  have hpid : post.id = pid := by simpa using List.find?_some hfp
  have hinv' := ledgerConsistent_forall db hinv
  have hall := findVote_none_all db uid pid hfv
  simp only [dbWellFormed, Bool.and_eq_true] at hwf
  constructor
  · simp only [ledgerConsistent, setDownvotes, insertVote]
    rw [List.all_eq_true]
    intro p' hp'
    obtain ⟨p, hp, rfl⟩ := List.mem_map.mp hp'
    by_cases hid : (p.id == pid) = true
    · have hpeq : p.id = pid := by simpa using hid
      simp only [hid, if_true, postConsistent]
      rw [Bool.and_eq_true, beq_iff_eq, beq_iff_eq]
      constructor
      · rw [countUp_append]
        have hup := (hinv' p hp).1
        simp only [hpeq] at hup ⊢
        simp [hup]
      · rw [countDown_append]
        have hdn := (hinv' post hmem).2
        rw [hpid] at hdn
        simp only [hpeq]
        simp [hdn]
    · have hb : (p.id == pid) = false := by
        cases h : (p.id == pid)
        · rfl
        · exact absurd h hid
      have hne : ¬(pid = p.id) := by
        intro h
        rw [h] at hb
        simp at hb
      simp only [hb, Bool.false_eq_true, if_false, postConsistent]
      rw [Bool.and_eq_true, beq_iff_eq, beq_iff_eq]
      constructor
      · rw [countUp_append]
        have hup := (hinv' p hp).1
        simp [hne, hup]
      · rw [countDown_append]
        have hdn := (hinv' p hp).2
        simp [hne, hdn]
  · simp only [dbWellFormed, setDownvotes, insertVote, Bool.and_eq_true]
    exact ⟨votesWellFormed_append uid pid (-1) db.postVotes hwf.1 hall,
      votesDirValid_append db.postVotes uid pid (-1) hwf.2 (Or.inr rfl)⟩

theorem switch_downvote_preserves (db : DB) (uid pid : Nat) (post : Post) (vote : VoteRow)
    (hfp : findPost db pid = some post)
    (hfv : findVote db uid pid = some vote)
    (hv : vote.voteType = 1)
    (hwf : dbWellFormed db = true)
    (hinv : ledgerConsistent db = true) :
    ledgerConsistent
      (setBothVotes (setVoteType db uid pid (-1)) pid (post.upvotes - 1) (post.downvotes + 1)) = true
    ∧ dbWellFormed
      (setBothVotes (setVoteType db uid pid (-1)) pid (post.upvotes - 1) (post.downvotes + 1)) = true := by
  have hmem : post ∈ db.posts := List.mem_of_find?_eq_some hfp
  have hpid : post.id = pid := by simpa using List.find?_some hfp
  have hinv' := ledgerConsistent_forall db hinv
  simp only [dbWellFormed, Bool.and_eq_true] at hwf
  have hcounts := counts_map_flip uid pid (-1) db.postVotes vote hwf.1 hfv
  have hup : (countUp (db.postVotes.map (flipVote uid pid (-1))) pid : Int)
      = (countUp db.postVotes pid : Int) - 1 := by
    rw [hcounts.1]
    simp [hv]
  have hdn : (countDown (db.postVotes.map (flipVote uid pid (-1))) pid : Int)
      = (countDown db.postVotes pid : Int) + 1 := by
    rw [hcounts.2]
    simp [hv]
  constructor
  · simp only [ledgerConsistent, setBothVotes, setVoteType]
    rw [List.all_eq_true]
    intro p' hp'
    obtain ⟨p, hp, rfl⟩ := List.mem_map.mp hp'
    by_cases hid : (p.id == pid) = true
    · have hpeq : p.id = pid := by simpa using hid
      simp only [hid, if_true, postConsistent]
      rw [Bool.and_eq_true, beq_iff_eq, beq_iff_eq]
      have hpost := hinv' post hmem
      rw [hpid] at hpost
      constructor
      · simp only [hpeq]
        rw [hup]
        omega
      · simp only [hpeq]
        rw [hdn]
        omega
    · have hb : (p.id == pid) = false := by
        cases h : (p.id == pid)
        · rfl
        · exact absurd h hid
      have hne : ¬(p.id = pid) := by
        intro h
        rw [h] at hb
        simp at hb
      have hcne := counts_map_flip_ne uid pid p.id (-1) hne db.postVotes
      simp only [hb, Bool.false_eq_true, if_false, postConsistent]
      rw [Bool.and_eq_true, beq_iff_eq, beq_iff_eq]
      have hpp := hinv' p hp
      rw [hcne.1, hcne.2]
      exact ⟨hpp.1, hpp.2⟩
  · simp only [dbWellFormed, setBothVotes, setVoteType, Bool.and_eq_true]
    exact ⟨votesWellFormed_map_flip uid pid (-1) db.postVotes hwf.1,
      votesDirValid_map_flip uid pid (-1) (Or.inr rfl) db.postVotes hwf.2⟩

/-- C1 amended: starting from a well-formed state (unique (user, post)
ledger keys, directions in plus or minus one) satisfying the
Ledger/Counter invariant, every completed call of the ledger-variant
upvote and downvote endpoints preserves the invariant and the
well-formedness, on every control path; the counter-only variant (see
the counterexample) does not. -/
theorem c1_amended (db : DB) (uid pid : Nat)
    (hwf : dbWellFormed db = true) (hinv : ledgerConsistent db = true) :
    (ledgerConsistent (upvote uid pid db).1 = true
      ∧ dbWellFormed (upvote uid pid db).1 = true)
    ∧ (ledgerConsistent (downvote uid pid db).1 = true
      ∧ dbWellFormed (downvote uid pid db).1 = true) := by
  have hwf2 := hwf
  simp only [dbWellFormed, Bool.and_eq_true] at hwf2
  constructor
  · by_cases h0 : pid = 0
    · have heq : (upvote uid pid db).1 = db := by
        simp [upvote, upvoteRun, h0]
      rw [heq]
      exact ⟨hinv, hwf⟩
    · cases hfp : findPost db pid with
      | none =>
        have heq : (upvote uid pid db).1 = db := by
          simp [upvote, upvoteRun, h0, hfp, Conn.cur]
        rw [heq]
        exact ⟨hinv, hwf⟩
      | some post =>
        cases hfv : findVote db uid pid with
        | none =>
          have heq : (upvote uid pid db).1
              = setUpvotes (insertVote db uid pid 1) pid (post.upvotes + 1) := by
            simp [upvote, upvoteRun, h0, hfp, hfv, Conn.cur, Conn.beginTx, Conn.write,
              Conn.commitTx]
          rw [heq]
          exact fresh_upvote_preserves db uid pid post hfp hfv hwf hinv
        | some vote =>
          by_cases hv1 : vote.voteType = 1
          · have heq : (upvote uid pid db).1 = db := by
              simp [upvote, upvoteRun, h0, hfp, hfv, hv1, Conn.cur]
            rw [heq]
            exact ⟨hinv, hwf⟩
          · have hmemv : vote ∈ db.postVotes := List.mem_of_find?_eq_some hfv
            have hvm : vote.voteType = -1 := by
              have hval := List.all_eq_true.mp hwf2.2 vote hmemv
              have hor : vote.voteType = 1 ∨ vote.voteType = -1 := by simpa using hval
              rcases hor with h | h
              · exact absurd h hv1
              · exact h
            have heq : (upvote uid pid db).1
                = setBothVotes (setVoteType db uid pid 1) pid (post.upvotes + 1)
                    (post.downvotes - 1) := by
              simp [upvote, upvoteRun, h0, hfp, hfv, hv1, Conn.cur, Conn.beginTx, Conn.write,
                Conn.commitTx]
            rw [heq]
            exact switch_upvote_preserves db uid pid post vote hfp hfv hvm hwf hinv
  · by_cases h0 : pid = 0
    · have heq : (downvote uid pid db).1 = db := by
        simp [downvote, downvoteRun, h0]
      rw [heq]
      exact ⟨hinv, hwf⟩
    · cases hfp : findPost db pid with
      | none =>
        have heq : (downvote uid pid db).1 = db := by
          simp [downvote, downvoteRun, h0, hfp, Conn.cur]
        rw [heq]
        exact ⟨hinv, hwf⟩
      | some post =>
        cases hfv : findVote db uid pid with
        | none =>
          have heq : (downvote uid pid db).1
              = setDownvotes (insertVote db uid pid (-1)) pid (post.downvotes + 1) := by
            simp [downvote, downvoteRun, h0, hfp, hfv, Conn.cur, Conn.beginTx, Conn.write,
              Conn.commitTx]
          rw [heq]
          exact fresh_downvote_preserves db uid pid post hfp hfv hwf hinv
        | some vote =>
          by_cases hv1 : vote.voteType = -1
          · have heq : (downvote uid pid db).1 = db := by
              simp [downvote, downvoteRun, h0, hfp, hfv, hv1, Conn.cur]
            rw [heq]
            exact ⟨hinv, hwf⟩
          · have hmemv : vote ∈ db.postVotes := List.mem_of_find?_eq_some hfv
            have hvp : vote.voteType = 1 := by
              have hval := List.all_eq_true.mp hwf2.2 vote hmemv
              have hor : vote.voteType = 1 ∨ vote.voteType = -1 := by simpa using hval
              rcases hor with h | h
              · exact h
              · exact absurd h hv1
            have heq : (downvote uid pid db).1
                = setBothVotes (setVoteType db uid pid (-1)) pid (post.upvotes - 1)
                    (post.downvotes + 1) := by
              simp [downvote, downvoteRun, h0, hfp, hfv, hv1, Conn.cur, Conn.beginTx, Conn.write,
                Conn.commitTx]
            rw [heq]
            exact switch_downvote_preserves db uid pid post vote hfp hfv hvp hwf hinv

/-- C1 counterexample: the claim quantifies over every variant of the
vote endpoints, but the counter-only upvote variant (server.js:2355)
increments the posts counter without writing any ledger row: one
successful call on a fresh consistent post leaves upvotes = 1 against an
empty ledger, violating the Ledger/Counter invariant. -/
theorem c1_counterexample :
    ledgerConsistent c1db = true
    ∧ (upvoteSimple 1 c1db).2.status = 200
    ∧ ledgerConsistent (upvoteSimple 1 c1db).1 = false := by
  decide

/-- Witness for C1 amended: the fresh one-post state is well-formed and
consistent, and stays consistent after an upvote and after a downvote. -/
theorem c1_amended_witness :
    dbWellFormed c1db = true
    ∧ ledgerConsistent c1db = true
    ∧ ledgerConsistent (upvote 1 1 c1db).1 = true
    ∧ ledgerConsistent (downvote 1 1 c1db).1 = true :=
  ⟨by decide, by decide,
    (c1_amended c1db 1 1 (by decide) (by decide)).1.1,
    (c1_amended c1db 1 1 (by decide) (by decide)).2.1⟩

end RestaurantsData
